import Mathlib

/-!
Shallow embedding of the `bff` command-line buffer editor (`src/main.cpp`),
covering the `BufferManager` class: the resident buffer map, the per-name
temp-snapshot persistence protocol, and the 1-based line-editing operations.

File contents are modelled as lists of characters (`Str`); the snapshot
store and the user-facing file system are explicit components of the state,
so that every operation is a pure state transformer.
-/

namespace BFF

/-- Raw text content: a C++ `std::string` as a list of characters. -/
abbrev Str := List Char

/-- `struct Buffer` from `main.cpp`: a named ordered sequence of text lines,
the path it was last associated with, and the dirty flag. -/
structure Buffer where
  name : String
  lines : List Str
  file_path : String
  is_modified : Bool
deriving DecidableEq

/-- The buffer constructed by `Buffer(string buff_name)`: empty lines,
empty path, not modified. -/
def emptyBuffer (name : String) : Buffer :=
  { name := name, lines := [], file_path := "", is_modified := false }

/-- State of a `BufferManager` together with its snapshot directory:
the resident map `buffers` (an association list mirroring
`map<string, Buffer*>`), the snapshot files keyed by buffer name
(`<temp_directory>/<name>.tmp`), and which snapshot files can be opened
for writing. -/
structure BMState where
  buffers : List (String × Buffer)
  snapshots : String → Option Str
  snapWritable : String → Bool

/-- The user-facing file system seen by `open_file`/`save_file`:
which paths can be opened for reading (and their content), and which
can be opened for writing. -/
structure FileSystem where
  read : String → Option Str
  writable : String → Bool

/-- Lookup in the resident buffer map (`buffers.find(name)`). -/
def lookupBuf (name : String) : List (String × Buffer) → Option Buffer
  | [] => none
  | (k, v) :: t => if k = name then some v else lookupBuf name t

/-- Write back through the `Buffer*` obtained from the map entry keyed by
`name`: replaces the buffer stored under that key. -/
def setBuf (name : String) (b : Buffer) : List (String × Buffer) → List (String × Buffer)
  | [] => []
  | (k, v) :: t => if k = name then (k, b) :: t else (k, v) :: setBuf name b t

/-- `padder(total_length, len)`: the run of `'0'` characters prepended to a
line number; empty when `len` is at least `total_length` (the C++ negative
count makes the loop run zero times). -/
def padder (total len : Nat) : Str :=
  List.replicate (total - len) '0'

/-- Serialization used by `save_buffer_to_temp` and `save_file`:
each line is written followed by a single `'\n'`. -/
def serializeLines : List Str → Str
  | [] => []
  | l :: ls => l ++ '\n' :: serializeLines ls

/-- The `while (getline(file, line))` reading loop: splits the file content
at `'\n'`, consuming the delimiter; a final unterminated segment yields one
more line, and an empty file yields no lines. -/
def splitLines : Str → List Str
  | [] => []
  | c :: cs =>
    if c = '\n' then [] :: splitLines cs
    else
      match splitLines cs with
      | [] => [[c]]
      | l :: ls => (c :: l) :: ls

/-- `BufferManager::create_buffer`: return the resident buffer if present,
otherwise insert a fresh empty buffer under `name`. -/
def create_buffer (s : BMState) (name : String) : Buffer × BMState :=
  match lookupBuf name s.buffers with
  | some b => (b, s)
  | none =>
    let b := emptyBuffer name
    (b, { s with buffers := (name, b) :: s.buffers })

/-- `BufferManager::save_buffer_to_temp`: write the full serialized line
sequence to the snapshot file named by the buffer's own name; silently
no-op when that file cannot be opened for writing. -/
def save_buffer_to_temp (s : BMState) (b : Buffer) : BMState :=
  if s.snapWritable b.name then
    { s with snapshots := fun n => if n = b.name then some (serializeLines b.lines) else s.snapshots n }
  else s

/-- `BufferManager::load_buffer_from_temp`: if no snapshot file exists for
`name`, do nothing; otherwise create/fetch the resident buffer and replace
its lines with the snapshot content read back line by line. -/
def load_buffer_from_temp (s : BMState) (name : String) : BMState :=
  match s.snapshots name with
  | none => s
  | some content =>
    let p := create_buffer s name
    { p.2 with buffers := setBuf name { p.1 with lines := splitLines content } p.2.buffers }

/-- `BufferManager::get_buffer`: resident lookup, then snapshot rehydration,
then creation of a fresh empty buffer.  The returned pointer is modelled as
an `Option` to reflect the C++ `Buffer*` that callers null-check. -/
def get_buffer? (s : BMState) (name : String) : Option Buffer × BMState :=
  match lookupBuf name s.buffers with
  | some b => (some b, s)
  | none =>
    let s1 := load_buffer_from_temp s name
    match lookupBuf name s1.buffers with
    | some b => (some b, s1)
    | none =>
      let p := create_buffer s1 name
      (some p.1, p.2)

/-- `BufferManager::open_file`: create/fetch the buffer, fail if `path`
cannot be opened for reading, otherwise replace the lines with the file's
content, record the path, clear the dirty flag and snapshot. -/
def open_file (fs : FileSystem) (s : BMState) (name path : String) : Bool × BMState :=
  let p := create_buffer s name
  match fs.read path with
  | none => (false, p.2)
  | some content =>
    let b := { p.1 with lines := splitLines content, file_path := path, is_modified := false }
    let s2 := { p.2 with buffers := setBuf name b p.2.buffers }
    (true, save_buffer_to_temp s2 b)

/-- `BufferManager::save_file`: resolve the buffer, pick the explicit path
or the recorded one, fail when both are empty or the target cannot be
opened for writing; on success clear the dirty flag, update the recorded
path when one was supplied, and snapshot.  (The bytes written to the target
file are `serializeLines` of the lines; the model does not track user-file
contents.) -/
def save_file (fs : FileSystem) (s : BMState) (name path : String) : Bool × BMState :=
  let p := get_buffer? s name
  match p.1 with
  | none => (false, p.2)
  | some b =>
    let save_path := if path = "" then b.file_path else path
    if save_path = "" then (false, p.2)
    else if fs.writable save_path then
      let b2 := { b with is_modified := false,
                         file_path := if path = "" then b.file_path else path }
      let s2 := { p.2 with buffers := setBuf name b2 p.2.buffers }
      (true, save_buffer_to_temp s2 b2)
    else (false, p.2)

/-- `BufferManager::create_new_buffer`: create/fetch, clear the lines, set
the recorded path, clear the dirty flag, snapshot; always succeeds. -/
def create_new_buffer (s : BMState) (name path : String) : Bool × BMState :=
  let p := create_buffer s name
  let b := { p.1 with lines := [], file_path := path, is_modified := false }
  let s2 := { p.2 with buffers := setBuf name b p.2.buffers }
  (true, save_buffer_to_temp s2 b)

/-- `BufferManager::append_to_buffer`: push the content as a new last line
and snapshot. -/
def append_to_buffer (s : BMState) (name : String) (content : Str) : BMState :=
  let p := get_buffer? s name
  match p.1 with
  | none => p.2
  | some b =>
    let b2 := { b with lines := b.lines ++ [content], is_modified := true }
    let s2 := { p.2 with buffers := setBuf name b2 p.2.buffers }
    save_buffer_to_temp s2 b2

/-- `BufferManager::replace_line`: fails when the address is outside
`[1, len]`, otherwise overwrites line `n` and snapshots. -/
def replace_line (s : BMState) (name : String) (n : Int) (content : Str) : Bool × BMState :=
  let p := get_buffer? s name
  match p.1 with
  | none => (false, p.2)
  | some b =>
    if n < 1 ∨ n > (b.lines.length : Int) then (false, p.2)
    else
      let b2 := { b with lines := b.lines.set (n - 1).toNat content, is_modified := true }
      let s2 := { p.2 with buffers := setBuf name b2 p.2.buffers }
      (true, save_buffer_to_temp s2 b2)

/-- `BufferManager::insert_line`: fails only when `n < 1`; when `n` exceeds
the length the content is appended as the new last line, otherwise it is
inserted before the current line `n`. -/
def insert_line (s : BMState) (name : String) (n : Int) (content : Str) : Bool × BMState :=
  let p := get_buffer? s name
  match p.1 with
  | none => (false, p.2)
  | some b =>
    if n < 1 then (false, p.2)
    else
      let newLines :=
        if n > (b.lines.length : Int) then b.lines ++ [content]
        else b.lines.insertIdx (n - 1).toNat content
      let b2 := { b with lines := newLines, is_modified := true }
      let s2 := { p.2 with buffers := setBuf name b2 p.2.buffers }
      (true, save_buffer_to_temp s2 b2)

/-- `BufferManager::delete_line`: fails when the address is outside
`[1, len]`, otherwise erases line `n` and snapshots. -/
def delete_line (s : BMState) (name : String) (n : Int) : Bool × BMState :=
  let p := get_buffer? s name
  match p.1 with
  | none => (false, p.2)
  | some b =>
    if n < 1 ∨ n > (b.lines.length : Int) then (false, p.2)
    else
      let b2 := { b with lines := b.lines.eraseIdx (n - 1).toNat, is_modified := true }
      let s2 := { p.2 with buffers := setBuf name b2 p.2.buffers }
      (true, save_buffer_to_temp s2 b2)

/-- `BufferManager::move_line`: both addresses checked against the current
length; the source line is erased, the target decremented when it lay
behind the source, and the saved content reinserted. -/
def move_line (s : BMState) (name : String) (from_line to_line : Int) : Bool × BMState :=
  let p := get_buffer? s name
  match p.1 with
  | none => (false, p.2)
  | some b =>
    if from_line < 1 ∨ to_line < 1 ∨ from_line > (b.lines.length : Int) ∨
        to_line > (b.lines.length : Int) then (false, p.2)
    else
      let content := b.lines.getD (from_line - 1).toNat []
      let erased := b.lines.eraseIdx (from_line - 1).toNat
      let to2 := if to_line > from_line then to_line - 1 else to_line
      let b2 := { b with lines := erased.insertIdx (to2 - 1).toNat content, is_modified := true }
      let s2 := { p.2 with buffers := setBuf name b2 p.2.buffers }
      (true, save_buffer_to_temp s2 b2)

/-- `BufferManager::copy_line`: both addresses checked against the current
length; the source line's content is inserted (again) at the target
position, nothing is removed. -/
def copy_line (s : BMState) (name : String) (from_line to_line : Int) : Bool × BMState :=
  let p := get_buffer? s name
  match p.1 with
  | none => (false, p.2)
  | some b =>
    if from_line < 1 ∨ to_line < 1 ∨ from_line > (b.lines.length : Int) ∨
        to_line > (b.lines.length : Int) then (false, p.2)
    else
      let content := b.lines.getD (from_line - 1).toNat []
      let b2 := { b with lines := b.lines.insertIdx (to_line - 1).toNat content,
                         is_modified := true }
      let s2 := { p.2 with buffers := setBuf name b2 p.2.buffers }
      (true, save_buffer_to_temp s2 b2)

/-- `BufferManager::get_line`: returns the line content for an in-range
address and the empty string otherwise; never mutates lines or snapshots. -/
def get_line (s : BMState) (name : String) (n : Int) : Str × BMState :=
  let p := get_buffer? s name
  match p.1 with
  | none => ([], p.2)
  | some b =>
    if n < 1 ∨ n > (b.lines.length : Int) then ([], p.2)
    else (b.lines.getD (n - 1).toNat [], p.2)

/-- One emitted record of a printing operation: a numbered line (with the
`padder` output actually prepended by the code) or the not-found
diagnostic written to `cerr`. -/
inductive OutRec where
  | line (pad : Str) (num : Nat) (content : Str)
  | notFound (name : String)
deriving DecidableEq

/-- `BufferManager::print_buffer`: the not-found diagnostic when the
resolved pointer is null, otherwise every line numbered from 1, padded by
`padder(4, content length)`. -/
def print_buffer (s : BMState) (name : String) : List OutRec × BMState :=
  let p := get_buffer? s name
  match p.1 with
  | none => ([OutRec.notFound name], p.2)
  | some b =>
    (b.lines.enum.map (fun q => OutRec.line (padder 4 q.2.length) (q.1 + 1) q.2), p.2)

/-- The loop body data of `print_lines` for the 1-based counter values
`i = st, st+1, ..., en`: each record holds the raw read `lines[i]`
(0-based, the read feeding `padder` — `none` marks an out-of-bounds vector
access), the printed number `i`, and the printed content `lines[i-1]`. -/
def emitRange (lines : List Str) (st en : Int) : List (Option Str × Nat × Str) :=
  (List.range (en + 1 - st).toNat).map (fun k =>
    let i := st.toNat + k
    (lines[i]?, i, lines.getD (i - 1) []))

/-- `BufferManager::print_lines`: the not-found diagnostic when the
resolved pointer is null (`none` result), otherwise `start` is clamped up
to 1, `end` down to the length, and the loop emits `emitRange`. -/
def print_lines (s : BMState) (name : String) (start_line end_line : Int) :
    Option (List (Option Str × Nat × Str)) × BMState :=
  let p := get_buffer? s name
  match p.1 with
  | none => (none, p.2)
  | some b =>
    let st := if start_line < 1 then 1 else start_line
    let en := if end_line > (b.lines.length : Int) then (b.lines.length : Int) else end_line
    (some (emitRange b.lines st en), p.2)

/-- The buffer-mutating operations of the `BufferManager`, used to state
properties uniformly over every mutating operation. -/
inductive EditOp where
  | append (content : Str)
  | replace (n : Int) (content : Str)
  | insert (n : Int) (content : Str)
  | del (n : Int)
  | move (from_line to_line : Int)
  | copy (from_line to_line : Int)
  | openf (path : String)
  | savef (path : String)
  | newbuf (path : String)

/-- Dispatch of an `EditOp` to the corresponding `BufferManager` method;
`append_to_buffer` returns no status in the code, so it is reported as
always succeeding (the command layer prints success unconditionally). -/
def applyOp (fs : FileSystem) (s : BMState) (name : String) : EditOp → Bool × BMState
  | .append c => (true, append_to_buffer s name c)
  | .replace n c => replace_line s name n c
  | .insert n c => insert_line s name n c
  | .del n => delete_line s name n
  | .move f t => move_line s name f t
  | .copy f t => copy_line s name f t
  | .openf path => open_file fs s name path
  | .savef path => save_file fs s name path
  | .newbuf path => create_new_buffer s name path

/-- `BufferManager::~BufferManager`: saves every resident buffer to its
snapshot.  In the program this destructor is only reached when
`BFFEditor::run` returns normally; after executing a command `run` calls
`exit(result)`, which does not run destructors of automatic objects, so
this flush never happens on a command path. -/
def flushAll (s : BMState) : BMState :=
  s.buffers.foldl (fun st q => save_buffer_to_temp st q.2) s

/-- The `BufferManager` state at the start of a process invocation: an
empty resident map over the on-disk snapshot store. -/
def initState (snap : String → Option Str) (w : String → Bool) : BMState :=
  { buffers := [], snapshots := snap, snapWritable := w }

/-- The line sequence a later, separate invocation recovers for `name`:
resolve `name` through `get_buffer` starting from an empty resident map
over the given snapshot store. -/
def freshLines (snap : String → Option Str) (name : String) : List Str :=
  match (get_buffer? (initState snap (fun _ => true)) name).1 with
  | some b => b.lines
  | none => []

/-- A whole process invocation of `bff -b <name> line <n> get`: `main`
constructs a fresh `BufferManager` (empty resident map), `execute_command`
runs `get_line`, and `run` then terminates via `exit(result)` — the
destructor flush (`flushAll`) is NOT executed, so the final on-disk
snapshot store is the one carried in the returned state. -/
def bff_run_get (snap : String → Option Str) (w : String → Bool) (name : String) (n : Int) :
    Str × BMState :=
  get_line (initState snap w) name n

/-! ### Helper lemmas -/

theorem splitLines_append (l rest : Str) (h : '\n' ∉ l) :
    splitLines (l ++ '\n' :: rest) = l :: splitLines rest := by
  induction l with
  | nil => simp [splitLines]
  | cons c cs ih =>
    have hc : c ≠ '\n' := fun hc => h (hc ▸ List.mem_cons_self c cs)
    have hcs : '\n' ∉ cs := fun hm => h (List.mem_cons_of_mem c hm)
    show splitLines (c :: (cs ++ '\n' :: rest)) = _
    rw [splitLines, if_neg hc, ih hcs]

theorem splitLines_serializeLines (ls : List Str) (h : ∀ l ∈ ls, '\n' ∉ l) :
    splitLines (serializeLines ls) = ls := by
  induction ls with
  | nil => rfl
  | cons l t ih =>
    have hl : '\n' ∉ l := h l (List.mem_cons_self l t)
    have ht : ∀ x ∈ t, '\n' ∉ x := fun x hx => h x (List.mem_cons_of_mem l hx)
    simp only [serializeLines, splitLines_append l _ hl, ih ht]

theorem lookupBuf_setBuf_self (name : String) (b x : Buffer) (l : List (String × Buffer))
    (h : lookupBuf name l = some x) :
    lookupBuf name (setBuf name b l) = some b := by
  induction l with
  | nil => simp [lookupBuf] at h
  | cons p t ih =>
    by_cases hk : p.1 = name
    · simp [lookupBuf, setBuf, hk]
    · simp only [lookupBuf, setBuf, if_neg hk] at h ⊢
      exact ih h

theorem create_buffer_lookup (s : BMState) (name : String) :
    lookupBuf name (create_buffer s name).2.buffers = some (create_buffer s name).1 := by
  unfold create_buffer
  cases h : lookupBuf name s.buffers with
  | some b => simp [h]
  | none => simp [h, lookupBuf]

theorem create_buffer_snapshots (s : BMState) (name : String) :
    (create_buffer s name).2.snapshots = s.snapshots := by
  unfold create_buffer
  cases h : lookupBuf name s.buffers <;> simp [h]

theorem load_buffer_from_temp_snapshots (s : BMState) (name : String) :
    (load_buffer_from_temp s name).snapshots = s.snapshots := by
  unfold load_buffer_from_temp
  cases h : s.snapshots name with
  | none => rfl
  | some c => simp [create_buffer_snapshots]

theorem get_buffer?_isSome (s : BMState) (name : String) :
    ((get_buffer? s name).1).isSome = true := by
  unfold get_buffer?
  cases h1 : lookupBuf name s.buffers with
  | some b => simp [h1]
  | none =>
    simp only [h1]
    cases h2 : lookupBuf name (load_buffer_from_temp s name).buffers <;> simp [h2]

theorem get_buffer?_lookup (s : BMState) (name : String) (b : Buffer)
    (h : (get_buffer? s name).1 = some b) :
    lookupBuf name (get_buffer? s name).2.buffers = some b := by
  unfold get_buffer? at h ⊢
  cases h1 : lookupBuf name s.buffers with
  | some x =>
    simp only [h1, Option.some.injEq] at h ⊢
    exact h
  | none =>
    simp only [h1] at h ⊢
    cases h2 : lookupBuf name (load_buffer_from_temp s name).buffers with
    | some x =>
      simp only [h2, Option.some.injEq] at h ⊢
      exact h
    | none =>
      simp only [h2, Option.some.injEq] at h ⊢
      rw [← h]
      exact create_buffer_lookup _ _

theorem get_buffer?_snapshots (s : BMState) (name : String) :
    (get_buffer? s name).2.snapshots = s.snapshots := by
  unfold get_buffer?
  cases h1 : lookupBuf name s.buffers with
  | some b => simp [h1]
  | none =>
    simp only [h1]
    cases h2 : lookupBuf name (load_buffer_from_temp s name).buffers with
    | some b => simp [h2, load_buffer_from_temp_snapshots]
    | none => simp [h2, create_buffer_snapshots, load_buffer_from_temp_snapshots]

theorem create_buffer_snapWritable (s : BMState) (name : String) :
    (create_buffer s name).2.snapWritable = s.snapWritable := by
  unfold create_buffer
  cases h : lookupBuf name s.buffers <;> simp [h]

theorem load_buffer_from_temp_snapWritable (s : BMState) (name : String) :
    (load_buffer_from_temp s name).snapWritable = s.snapWritable := by
  unfold load_buffer_from_temp
  cases h : s.snapshots name with
  | none => rfl
  | some c => simp [create_buffer_snapWritable]

theorem get_buffer?_snapWritable (s : BMState) (name : String) :
    (get_buffer? s name).2.snapWritable = s.snapWritable := by
  unfold get_buffer?
  cases h1 : lookupBuf name s.buffers with
  | some b => simp [h1]
  | none =>
    simp only [h1]
    cases h2 : lookupBuf name (load_buffer_from_temp s name).buffers with
    | some b => simp [h2, load_buffer_from_temp_snapWritable]
    | none => simp [h2, create_buffer_snapWritable, load_buffer_from_temp_snapWritable]

theorem create_buffer_setW (s : BMState) (w : String → Bool) (name : String) :
    create_buffer { s with snapWritable := w } name =
      ((create_buffer s name).1, { (create_buffer s name).2 with snapWritable := w }) := by
  unfold create_buffer
  cases h : lookupBuf name s.buffers <;> simp [h]

theorem load_buffer_from_temp_setW (s : BMState) (w : String → Bool) (name : String) :
    load_buffer_from_temp { s with snapWritable := w } name =
      { load_buffer_from_temp s name with snapWritable := w } := by
  unfold load_buffer_from_temp
  cases h : s.snapshots name with
  | none => simp [h]
  | some c => simp [h, create_buffer_setW]

theorem get_buffer?_setW (s : BMState) (w : String → Bool) (name : String) :
    get_buffer? { s with snapWritable := w } name =
      ((get_buffer? s name).1, { (get_buffer? s name).2 with snapWritable := w }) := by
  unfold get_buffer?
  cases h1 : lookupBuf name s.buffers with
  | some b => simp [h1]
  | none =>
    cases h2 : lookupBuf name (load_buffer_from_temp s name).buffers with
    | some b => simp [h1, h2, load_buffer_from_temp_setW]
    | none => simp [h1, h2, load_buffer_from_temp_setW, create_buffer_setW]

theorem save_buffer_to_temp_buffers (s : BMState) (b : Buffer) :
    (save_buffer_to_temp s b).buffers = s.buffers := by
  unfold save_buffer_to_temp
  split <;> rfl

theorem save_buffer_to_temp_not_writable (s : BMState) (b : Buffer)
    (h : s.snapWritable b.name = false) :
    save_buffer_to_temp s b = s := by
  unfold save_buffer_to_temp
  simp [h]

theorem save_buffer_to_temp_snapshot_self (s : BMState) (b : Buffer)
    (h : s.snapWritable b.name = true) :
    (save_buffer_to_temp s b).snapshots b.name = some (serializeLines b.lines) := by
  unfold save_buffer_to_temp
  simp [h]

theorem insertIdx_getD_eraseIdx (l : List Str) (i : Nat) (d : Str) (h : i < l.length) :
    (l.eraseIdx i).insertIdx i (l.getD i d) = l := by
  induction l generalizing i with
  | nil => simp at h
  | cons a t ih =>
    cases i with
    | zero => simp [List.eraseIdx, List.insertIdx, List.getD]
    | succ j =>
      have hj : j < t.length := Nat.lt_of_succ_lt_succ (by simpa using h)
      simp only [List.eraseIdx, List.getD_cons_succ, List.insertIdx_succ_cons]
      exact congrArg (a :: ·) (ih j hj)

theorem insertIdx_eq_take_cons_drop (l : List Str) (i : Nat) (x : Str) (h : i ≤ l.length) :
    l.insertIdx i x = l.take i ++ x :: l.drop i := by
  induction l generalizing i with
  | nil =>
    have : i = 0 := Nat.le_zero.mp (by simpa using h)
    simp [this, List.insertIdx]
  | cons a t ih =>
    cases i with
    | zero => simp [List.insertIdx]
    | succ j =>
      have hj : j ≤ t.length := Nat.le_of_succ_le_succ (by simpa using h)
      simp only [List.insertIdx_succ_cons, List.take_succ_cons, List.drop_succ_cons,
        List.cons_append]
      exact congrArg (a :: ·) (ih j hj)

theorem freshLines_of_snapshot (snap : String → Option Str) (name : String) (c : Str)
    (hc : snap name = some c) : freshLines snap name = splitLines c := by
  simp [freshLines, get_buffer?, initState, load_buffer_from_temp, create_buffer,
    lookupBuf, setBuf, hc]

/-- A concrete two-line resident buffer used by the witnesses. -/
def twoLineState : BMState :=
  { buffers := [("t", { name := "t", lines := [['a'], ['b']], file_path := "",
                        is_modified := false })],
    snapshots := fun _ => none, snapWritable := fun _ => true }

/-! ### Claim theorems -/

/-- C1: for every buffer name and every path that cannot be opened for
reading, `open_file` returns failure, the resident line sequence for the
name is untouched, the snapshot store is unchanged, and the state a later
invocation recovers from the snapshots is the same as before the failed
call.  (After `execute_command` the program terminates via `exit`, which
skips the destructor flush, so the returned snapshot store is the final
on-disk state.) -/
theorem C1_open_file_failure (fs : FileSystem) (s : BMState) (name path : String)
    (hfs : fs.read path = none) :
    (open_file fs s name path).1 = false ∧
    (open_file fs s name path).2.snapshots = s.snapshots ∧
    (∀ b, lookupBuf name s.buffers = some b →
      lookupBuf name (open_file fs s name path).2.buffers = some b) ∧
    (∀ n, freshLines (open_file fs s name path).2.snapshots n = freshLines s.snapshots n) := by
  have hsnap : (open_file fs s name path).2.snapshots = s.snapshots := by
    simp only [open_file, hfs]
    exact create_buffer_snapshots s name
  refine ⟨by simp [open_file, hfs], hsnap, ?_, fun n => by rw [hsnap]⟩
  intro b hb
  simp [open_file, hfs, create_buffer, hb]

theorem C1_witness :
    ((FileSystem.mk (fun _ => none) (fun _ => true)).read "/nope" = none) ∧
    ((open_file (FileSystem.mk (fun _ => none) (fun _ => true)) twoLineState "t" "/nope").1 = false ∧
     (open_file (FileSystem.mk (fun _ => none) (fun _ => true)) twoLineState "t" "/nope").2.snapshots =
       twoLineState.snapshots ∧
     (∀ b, lookupBuf "t" twoLineState.buffers = some b →
       lookupBuf "t" (open_file (FileSystem.mk (fun _ => none) (fun _ => true)) twoLineState "t" "/nope").2.buffers =
         some b) ∧
     (∀ n, freshLines (open_file (FileSystem.mk (fun _ => none) (fun _ => true)) twoLineState "t" "/nope").2.snapshots n =
       freshLines twoLineState.snapshots n)) :=
  ⟨rfl, C1_open_file_failure _ _ _ _ rfl⟩

/-- C2: writing a buffer's snapshot with `save_buffer_to_temp` and
resolving the name again from an empty resident map (a fresh process,
which rehydrates through `load_buffer_from_temp`) is the identity on the
line sequence, provided no line contains an embedded newline and the
snapshot file is writable.  Since every successful mutating operation ends
with exactly this `save_buffer_to_temp` call on the post-mutation buffer,
a later invocation recovers the post-mutation line sequence. -/
theorem C2_persistence_roundtrip (s : BMState) (b : Buffer)
    (hnl : ∀ l ∈ b.lines, '\n' ∉ l)
    (hw : s.snapWritable b.name = true) :
    freshLines (save_buffer_to_temp s b).snapshots b.name = b.lines := by
  rw [freshLines_of_snapshot _ _ _ (save_buffer_to_temp_snapshot_self s b hw)]
  exact splitLines_serializeLines _ hnl

theorem C2_witness :
    (∀ l ∈ (Buffer.mk "t" [['a'], ['b']] "" true).lines, '\n' ∉ l) ∧
    twoLineState.snapWritable (Buffer.mk "t" [['a'], ['b']] "" true).name = true ∧
    freshLines (save_buffer_to_temp twoLineState (Buffer.mk "t" [['a'], ['b']] "" true)).snapshots
        (Buffer.mk "t" [['a'], ['b']] "" true).name =
      (Buffer.mk "t" [['a'], ['b']] "" true).lines :=
  ⟨by decide, rfl, C2_persistence_roundtrip _ _ (by decide) rfl⟩

/-- C6: for every valid address `k` of the resolved buffer,
`move(name, k, k)` succeeds and leaves the line sequence unchanged: the
source line is erased and reinserted at the same index. -/
theorem C6_move_self_noop (s : BMState) (name : String) (k : Int) (b : Buffer)
    (hb : (get_buffer? s name).1 = some b)
    (h1 : 1 ≤ k) (h2 : k ≤ (b.lines.length : Int)) :
    (move_line s name k k).1 = true ∧
    (lookupBuf name (move_line s name k k).2.buffers).map Buffer.lines = some b.lines := by
  have hcond : ¬(k < 1 ∨ k < 1 ∨ k > (b.lines.length : Int) ∨ k > (b.lines.length : Int)) := by
    omega
  have hik : (k - 1).toNat < b.lines.length := by omega
  have hto : ¬(k > k) := lt_irrefl k
  have hlines : ((b.lines.eraseIdx (k - 1).toNat).insertIdx
      ((if k > k then k - 1 else k) - 1).toNat (b.lines.getD (k - 1).toNat [])) = b.lines := by
    rw [if_neg hto]
    exact insertIdx_getD_eraseIdx b.lines (k - 1).toNat [] hik
  constructor
  · simp only [move_line, hb]
    rw [if_neg hcond]
  · simp only [move_line, hb]
    rw [if_neg hcond]
    simp only [save_buffer_to_temp_buffers]
    rw [lookupBuf_setBuf_self name _ b _ (get_buffer?_lookup s name b hb)]
    simpa using hlines

theorem C6_witness :
    ((get_buffer? twoLineState "t").1 = some (Buffer.mk "t" [['a'], ['b']] "" false)) ∧
    (1 : Int) ≤ 2 ∧ (2 : Int) ≤ ((Buffer.mk "t" [['a'], ['b']] "" false).lines.length : Int) ∧
    ((move_line twoLineState "t" 2 2).1 = true ∧
     (lookupBuf "t" (move_line twoLineState "t" 2 2).2.buffers).map Buffer.lines =
       some (Buffer.mk "t" [['a'], ['b']] "" false).lines) :=
  ⟨by decide, by decide, by decide,
    C6_move_self_noop twoLineState "t" 2 _ (by decide) (by decide) (by decide)⟩

/-- C8: `get(name, n)` returns the content of line `n` when
`1 ≤ n ≤ len` and the empty string when `n` is out of range — never an
error — and the resolved buffer stays resident with its line sequence
unchanged. -/
theorem C8_get_line_sentinel (s : BMState) (name : String) (n : Int) (b : Buffer)
    (hb : (get_buffer? s name).1 = some b) :
    (get_line s name n).1 =
      (if 1 ≤ n ∧ n ≤ (b.lines.length : Int) then b.lines.getD (n - 1).toNat [] else []) ∧
    lookupBuf name (get_line s name n).2.buffers = some b := by
  constructor
  · simp only [get_line, hb]
    by_cases hc : n < 1 ∨ n > (b.lines.length : Int)
    · rw [if_pos hc, if_neg (by omega)]
    · rw [if_neg hc, if_pos (by omega)]
  · simp only [get_line, hb]
    split <;> exact get_buffer?_lookup s name b hb

theorem C8_witness :
    ((get_buffer? twoLineState "t").1 = some (Buffer.mk "t" [['a'], ['b']] "" false)) ∧
    ((get_line twoLineState "t" 5).1 =
      (if 1 ≤ (5 : Int) ∧ (5 : Int) ≤ ((Buffer.mk "t" [['a'], ['b']] "" false).lines.length : Int)
       then (Buffer.mk "t" [['a'], ['b']] "" false).lines.getD ((5 : Int) - 1).toNat [] else []) ∧
     lookupBuf "t" (get_line twoLineState "t" 5).2.buffers =
       some (Buffer.mk "t" [['a'], ['b']] "" false)) :=
  ⟨by decide, C8_get_line_sentinel twoLineState "t" 5 _ (by decide)⟩

theorem getD_insertIdx_of_lt (l : List Str) (x d : Str) (m i : Nat)
    (h : i < m) (hm : m ≤ l.length) :
    (l.insertIdx m x).getD i d = l.getD i d := by
  induction l generalizing m i with
  | nil => simp at hm; omega
  | cons a t ih =>
    cases m with
    | zero => omega
    | succ m2 =>
      cases i with
      | zero => simp [List.insertIdx_succ_cons]
      | succ i2 =>
        simp only [List.insertIdx_succ_cons, List.getD_cons_succ]
        exact ih m2 i2 (by omega) (by simpa using hm)

theorem getD_insertIdx_of_ge (l : List Str) (x d : Str) (m i : Nat)
    (h : m ≤ i) (hi : i < l.length) :
    (l.insertIdx m x).getD (i + 1) d = l.getD i d := by
  induction l generalizing m i with
  | nil => simp at hi
  | cons a t ih =>
    cases m with
    | zero => simp [List.insertIdx]
    | succ m2 =>
      cases i with
      | zero => omega
      | succ i2 =>
        simp only [List.insertIdx_succ_cons, List.getD_cons_succ]
        exact ih m2 i2 (by omega) (by simpa using hi)

/-- A fresh invocation over an empty snapshot directory. -/
def freshState : BMState := initState (fun _ => none) (fun _ => true)

/-- C4, counterexample: `print_all` on an absent buffer (never-seen name,
no snapshot, which also means zero lines after materialization) emits
nothing at all — neither lines nor the not-found/empty diagnostic the
claim requires. -/
theorem C4_counterexample :
    (print_buffer freshState "a").1 = ([] : List OutRec) := by decide

/-- C4, amended: `print_all(name)` emits exactly the resolved buffer's
lines, each prefixed by its 1-based number (and the `padder` output);
the not-found diagnostic is never emitted because `get_buffer` always
returns a buffer, and an absent or empty buffer simply produces zero
output records. -/
theorem C4_print_all_amended (s : BMState) (name : String) :
    ∃ b, (get_buffer? s name).1 = some b ∧
      (print_buffer s name).1 =
        b.lines.enum.map (fun q => OutRec.line (padder 4 q.2.length) (q.1 + 1) q.2) ∧
      OutRec.notFound name ∉ (print_buffer s name).1 := by
  obtain ⟨b, hb⟩ := Option.isSome_iff_exists.mp (get_buffer?_isSome s name)
  refine ⟨b, hb, ?_, ?_⟩
  · simp only [print_buffer, hb]
  · simp only [print_buffer, hb]
    simp [List.mem_map]

/-- C10, counterexample: a whole `bff -b a line 1 get` invocation on a
never-seen name materializes the empty resident buffer, but the final
on-disk snapshot store still has no entry for the name — the program exits
through `exit(result)`, which skips `~BufferManager`, so nothing is
flushed at process exit.  Had the destructor run (`flushAll`), the
snapshot would exist. -/
theorem C10_counterexample :
    lookupBuf "a" (bff_run_get (fun _ => none) (fun _ => true) "a" 1).2.buffers =
      some (emptyBuffer "a") ∧
    (bff_run_get (fun _ => none) (fun _ => true) "a" 1).2.snapshots "a" = none ∧
    (flushAll (bff_run_get (fun _ => none) (fun _ => true) "a" 1).2).snapshots "a" =
      some [] := by
  refine ⟨rfl, rfl, rfl⟩

/-- C10, amended: `get_buffer` always yields a buffer (so the not-found
branches of the printing and saving operations are unreachable), resolving
never touches the snapshot store, and an operation on a never-seen name
materializes the empty resident buffer — but that buffer is not flushed at
process exit, since `run` terminates via `exit`; only operations calling
`save_buffer_to_temp` persist it. -/
theorem C10_get_buffer_amended (s : BMState) (name : String) :
    ((get_buffer? s name).1).isSome = true ∧
    (get_buffer? s name).2.snapshots = s.snapshots ∧
    (lookupBuf name s.buffers = none → s.snapshots name = none →
      (get_buffer? s name).1 = some (emptyBuffer name) ∧
      lookupBuf name (get_buffer? s name).2.buffers = some (emptyBuffer name)) := by
  refine ⟨get_buffer?_isSome s name, get_buffer?_snapshots s name, fun h1 h2 => ?_⟩
  unfold get_buffer? load_buffer_from_temp create_buffer
  simp [h1, h2, lookupBuf]

theorem C10_witness :
    lookupBuf "a" freshState.buffers = none ∧
    freshState.snapshots "a" = none ∧
    ((get_buffer? freshState "a").1 = some (emptyBuffer "a") ∧
     lookupBuf "a" (get_buffer? freshState "a").2.buffers = some (emptyBuffer "a")) :=
  ⟨rfl, rfl, (C10_get_buffer_amended freshState "a").2.2 rfl rfl⟩

/-- C3, failing input: `print_range("t", 1, 2)` on the resident buffer
`["a", "b"]`.  The emitted numbers and contents match the claim
(`1: a`, `2: b`, with the clamping as described), but the `padder` call of
each iteration reads `lines[i]` — the line AFTER the printed one — so the
first record is padded by line 2's content and the final iteration reads
`lines[2]`, one past the end of the vector (`none` here; undefined
behavior in the C++). -/
theorem C3_print_range_pad_out_of_bounds :
    (print_lines twoLineState "t" 1 2).1 =
      some [(some ['b'], 1, ['a']), (none, 2, ['b'])] := by decide

/-- C5: `insert(name, n, content)` succeeds exactly when `n ≥ 1`; for
`n > len` (including `n = len + 1`) the content becomes the new last line,
and otherwise it is inserted immediately before current line `n`, shifting
the subsequent lines down by one. -/
theorem C5_insert_semantics (s : BMState) (name : String) (n : Int) (content : Str)
    (b : Buffer) (hb : (get_buffer? s name).1 = some b) :
    ((insert_line s name n content).1 = true ↔ 1 ≤ n) ∧
    (1 ≤ n →
      (lookupBuf name (insert_line s name n content).2.buffers).map Buffer.lines =
        some (if n > (b.lines.length : Int)
              then b.lines ++ [content]
              else b.lines.take (n - 1).toNat ++ content :: b.lines.drop (n - 1).toNat)) ∧
    (n = (b.lines.length : Int) + 1 →
      (lookupBuf name (insert_line s name n content).2.buffers).map Buffer.lines =
        some (b.lines ++ [content])) := by
  have hres : lookupBuf name (get_buffer? s name).2.buffers = some b :=
    get_buffer?_lookup s name b hb
  by_cases h1 : n < 1
  · have hn1 : ¬(1 ≤ n) := by omega
    have hne : ¬(n = (b.lines.length : Int) + 1) := by omega
    simp only [insert_line, hb, if_pos h1]
    exact ⟨by simpa using hn1, fun h => absurd h hn1, fun h => absurd h hne⟩
  · have hmain : (1 ≤ n) →
        (lookupBuf name (insert_line s name n content).2.buffers).map Buffer.lines =
          some (if n > (b.lines.length : Int)
                then b.lines ++ [content]
                else b.lines.take (n - 1).toNat ++ content :: b.lines.drop (n - 1).toNat) := by
      intro _
      simp only [insert_line, hb, if_neg h1, save_buffer_to_temp_buffers]
      rw [lookupBuf_setBuf_self name _ b _ hres]
      simp only [Option.map_some']
      refine congrArg some ?_
      show (if n > (b.lines.length : Int)
            then b.lines ++ [content]
            else b.lines.insertIdx (n - 1).toNat content) = _
      by_cases hlen : n > (b.lines.length : Int)
      · rw [if_pos hlen, if_pos hlen]
      · rw [if_neg hlen, if_neg hlen]
        exact insertIdx_eq_take_cons_drop b.lines (n - 1).toNat content (by omega)
    refine ⟨?_, hmain, fun h => ?_⟩
    · have ht : (insert_line s name n content).1 = true := by
        simp only [insert_line, hb]
        rw [if_neg h1]
      rw [ht]
      exact iff_of_true rfl (by omega)
    have hge : 1 ≤ n := by omega
    have hlen : n > (b.lines.length : Int) := by omega
    rw [hmain hge, if_pos hlen]

theorem C5_witness :
    ((get_buffer? twoLineState "t").1 = some (Buffer.mk "t" [['a'], ['b']] "" false)) ∧
    (((insert_line twoLineState "t" 3 ['x']).1 = true ↔ 1 ≤ (3 : Int)) ∧
     (1 ≤ (3 : Int) →
       (lookupBuf "t" (insert_line twoLineState "t" 3 ['x']).2.buffers).map Buffer.lines =
         some (if (3 : Int) > ((Buffer.mk "t" [['a'], ['b']] "" false).lines.length : Int)
               then (Buffer.mk "t" [['a'], ['b']] "" false).lines ++ [['x']]
               else (Buffer.mk "t" [['a'], ['b']] "" false).lines.take ((3 : Int) - 1).toNat ++
                 ['x'] :: (Buffer.mk "t" [['a'], ['b']] "" false).lines.drop ((3 : Int) - 1).toNat)) ∧
     ((3 : Int) = ((Buffer.mk "t" [['a'], ['b']] "" false).lines.length : Int) + 1 →
       (lookupBuf "t" (insert_line twoLineState "t" 3 ['x']).2.buffers).map Buffer.lines =
         some ((Buffer.mk "t" [['a'], ['b']] "" false).lines ++ [['x']]))) :=
  ⟨by decide, C5_insert_semantics twoLineState "t" 3 ['x'] _ (by decide)⟩

/-- C7: `copy(name, from, to)` succeeds exactly when both addresses are in
`[1, len]` of the current buffer; on success the line at `from` is
duplicated and the copy inserted at position `to` (shifting the lines at
and after `to` down by one), the length grows by exactly 1, and the
original `from` line — now at index `from-1` if `from < to`, else shifted
to index `from` — still holds its original content. -/
theorem C7_copy_semantics (s : BMState) (name : String) (fl tl : Int)
    (b : Buffer) (hb : (get_buffer? s name).1 = some b) :
    ((copy_line s name fl tl).1 = true ↔
      1 ≤ fl ∧ 1 ≤ tl ∧ fl ≤ (b.lines.length : Int) ∧ tl ≤ (b.lines.length : Int)) ∧
    (1 ≤ fl → 1 ≤ tl → fl ≤ (b.lines.length : Int) → tl ≤ (b.lines.length : Int) →
      ((lookupBuf name (copy_line s name fl tl).2.buffers).map Buffer.lines =
         some (b.lines.take (tl - 1).toNat ++
           b.lines.getD (fl - 1).toNat [] :: b.lines.drop (tl - 1).toNat) ∧
       (lookupBuf name (copy_line s name fl tl).2.buffers).map
           (fun b2 => b2.lines.length) = some (b.lines.length + 1) ∧
       (lookupBuf name (copy_line s name fl tl).2.buffers).map
           (fun b2 => b2.lines.getD (if fl < tl then (fl - 1).toNat else fl.toNat) []) =
         some (b.lines.getD (fl - 1).toNat []))) := by
  have hres : lookupBuf name (get_buffer? s name).2.buffers = some b :=
    get_buffer?_lookup s name b hb
  constructor
  · by_cases hc : fl < 1 ∨ tl < 1 ∨ fl > (b.lines.length : Int) ∨ tl > (b.lines.length : Int)
    · have hf : (copy_line s name fl tl).1 = false := by
        simp only [copy_line, hb]
        rw [if_pos hc]
      rw [hf]
      exact iff_of_false (by simp) (by omega)
    · have ht : (copy_line s name fl tl).1 = true := by
        simp only [copy_line, hb]
        rw [if_neg hc]
      rw [ht]
      exact iff_of_true rfl (by omega)
  · intro hf1 ht1 hf2 ht2
    have hc : ¬(fl < 1 ∨ tl < 1 ∨ fl > (b.lines.length : Int) ∨
        tl > (b.lines.length : Int)) := by omega
    have htl : (tl - 1).toNat ≤ b.lines.length := by omega
    simp only [copy_line, hb, if_neg hc, save_buffer_to_temp_buffers]
    rw [lookupBuf_setBuf_self name _ b _ hres]
    simp only [Option.map_some']
    refine ⟨congrArg some ?_, congrArg some ?_, congrArg some ?_⟩
    · exact insertIdx_eq_take_cons_drop b.lines (tl - 1).toNat _ htl
    · show (b.lines.insertIdx (tl - 1).toNat _).length = _
      exact List.length_insertIdx _ _ htl
    · show (b.lines.insertIdx (tl - 1).toNat
          (b.lines.getD (fl - 1).toNat [])).getD
            (if fl < tl then (fl - 1).toNat else fl.toNat) [] = _
      by_cases hlt : fl < tl
      · rw [if_pos hlt]
        exact getD_insertIdx_of_lt b.lines _ [] (tl - 1).toNat (fl - 1).toNat
          (by omega) htl
      · rw [if_neg hlt]
        have hfe : fl.toNat = (fl - 1).toNat + 1 := by omega
        rw [hfe]
        exact getD_insertIdx_of_ge b.lines _ [] (tl - 1).toNat (fl - 1).toNat
          (by omega) (by omega)

theorem C7_witness :
    ((get_buffer? twoLineState "t").1 = some (Buffer.mk "t" [['a'], ['b']] "" false)) ∧
    (1 : Int) ≤ 1 ∧ (1 : Int) ≤ 2 ∧
    (1 : Int) ≤ ((Buffer.mk "t" [['a'], ['b']] "" false).lines.length : Int) ∧
    (2 : Int) ≤ ((Buffer.mk "t" [['a'], ['b']] "" false).lines.length : Int) ∧
    ((lookupBuf "t" (copy_line twoLineState "t" 1 2).2.buffers).map Buffer.lines =
       some ((Buffer.mk "t" [['a'], ['b']] "" false).lines.take ((2 : Int) - 1).toNat ++
         (Buffer.mk "t" [['a'], ['b']] "" false).lines.getD ((1 : Int) - 1).toNat [] ::
           (Buffer.mk "t" [['a'], ['b']] "" false).lines.drop ((2 : Int) - 1).toNat) ∧
     (lookupBuf "t" (copy_line twoLineState "t" 1 2).2.buffers).map
         (fun b2 => b2.lines.length) =
       some ((Buffer.mk "t" [['a'], ['b']] "" false).lines.length + 1) ∧
     (lookupBuf "t" (copy_line twoLineState "t" 1 2).2.buffers).map
         (fun b2 => b2.lines.getD
           (if (1 : Int) < (2 : Int) then ((1 : Int) - 1).toNat else (1 : Int).toNat) []) =
       some ((Buffer.mk "t" [['a'], ['b']] "" false).lines.getD ((1 : Int) - 1).toNat [])) :=
  ⟨by decide, by decide, by decide, by decide, by decide,
    (C7_copy_semantics twoLineState "t" 1 2 _ (by decide)).2
      (by decide) (by decide) (by decide) (by decide)⟩

theorem snapshots_after_save_update (s : BMState) (name : String)
    (X : List (String × Buffer)) (b2 : Buffer)
    (hw : ∀ m, s.snapWritable m = false) :
    (save_buffer_to_temp { (get_buffer? s name).2 with buffers := X } b2).snapshots
      = s.snapshots := by
  have hnw : ({ (get_buffer? s name).2 with buffers := X } : BMState).snapWritable
      b2.name = false := by
    show (get_buffer? s name).2.snapWritable b2.name = false
    rw [get_buffer?_snapWritable]
    exact hw _
  rw [save_buffer_to_temp_not_writable _ _ hnw]
  exact get_buffer?_snapshots s name

theorem snapshots_after_save_update_cb (s : BMState) (name : String)
    (X : List (String × Buffer)) (b2 : Buffer)
    (hw : ∀ m, s.snapWritable m = false) :
    (save_buffer_to_temp { (create_buffer s name).2 with buffers := X } b2).snapshots
      = s.snapshots := by
  have hnw : ({ (create_buffer s name).2 with buffers := X } : BMState).snapWritable
      b2.name = false := by
    show (create_buffer s name).2.snapWritable b2.name = false
    rw [create_buffer_snapWritable]
    exact hw _
  rw [save_buffer_to_temp_not_writable _ _ hnw]
  exact create_buffer_snapshots s name

/-- C9: for every mutating operation, failure to open the snapshot file
for writing is invisible to the caller — the operation's result and the
in-memory buffer map are the same whatever the snapshot writability, and
when no snapshot file is writable the snapshot store is simply left
unchanged (no error channel exists for the snapshot write). -/
theorem C9_snapshot_failure_swallowed (fs : FileSystem) (s : BMState) (name : String)
    (op : EditOp) (w : String → Bool) :
    (applyOp fs { s with snapWritable := w } name op).1 = (applyOp fs s name op).1 ∧
    (applyOp fs { s with snapWritable := w } name op).2.buffers =
      (applyOp fs s name op).2.buffers ∧
    ((∀ m, s.snapWritable m = false) →
      (applyOp fs s name op).2.snapshots = s.snapshots) := by
  cases op with
  | append c =>
    refine ⟨?_, ?_, fun hw => ?_⟩
    · cases hgb : (get_buffer? s name).1 with
      | none => simp [applyOp, append_to_buffer, get_buffer?_setW, hgb]
      | some b => simp [applyOp, append_to_buffer, get_buffer?_setW, hgb]
    · cases hgb : (get_buffer? s name).1 with
      | none => simp [applyOp, append_to_buffer, get_buffer?_setW, hgb]
      | some b =>
        simp only [applyOp, append_to_buffer, get_buffer?_setW, hgb]
        rw [save_buffer_to_temp_buffers, save_buffer_to_temp_buffers]
    · cases hgb : (get_buffer? s name).1 with
      | none =>
        simp only [applyOp, append_to_buffer, hgb]
        exact get_buffer?_snapshots s name
      | some b =>
        simp only [applyOp, append_to_buffer, hgb]
        exact snapshots_after_save_update s name _ _ hw
  | replace n c =>
    refine ⟨?_, ?_, fun hw => ?_⟩
    · cases hgb : (get_buffer? s name).1 with
      | none => simp [applyOp, replace_line, get_buffer?_setW, hgb]
      | some b =>
        simp only [applyOp, replace_line, get_buffer?_setW, hgb]
        by_cases hc : n < 1 ∨ n > (b.lines.length : Int)
        · rw [if_pos hc, if_pos hc]
        · rw [if_neg hc, if_neg hc]
    · cases hgb : (get_buffer? s name).1 with
      | none => simp [applyOp, replace_line, get_buffer?_setW, hgb]
      | some b =>
        simp only [applyOp, replace_line, get_buffer?_setW, hgb]
        by_cases hc : n < 1 ∨ n > (b.lines.length : Int)
        · rw [if_pos hc, if_pos hc]
        · rw [if_neg hc, if_neg hc]
          rw [save_buffer_to_temp_buffers, save_buffer_to_temp_buffers]
    · cases hgb : (get_buffer? s name).1 with
      | none =>
        simp only [applyOp, replace_line, hgb]
        exact get_buffer?_snapshots s name
      | some b =>
        simp only [applyOp, replace_line, hgb]
        by_cases hc : n < 1 ∨ n > (b.lines.length : Int)
        · rw [if_pos hc]
          exact get_buffer?_snapshots s name
        · rw [if_neg hc]
          exact snapshots_after_save_update s name _ _ hw
  | insert n c =>
    refine ⟨?_, ?_, fun hw => ?_⟩
    · cases hgb : (get_buffer? s name).1 with
      | none => simp [applyOp, insert_line, get_buffer?_setW, hgb]
      | some b =>
        simp only [applyOp, insert_line, get_buffer?_setW, hgb]
        by_cases hc : n < 1
        · rw [if_pos hc, if_pos hc]
        · rw [if_neg hc, if_neg hc]
    · cases hgb : (get_buffer? s name).1 with
      | none => simp [applyOp, insert_line, get_buffer?_setW, hgb]
      | some b =>
        simp only [applyOp, insert_line, get_buffer?_setW, hgb]
        by_cases hc : n < 1
        · rw [if_pos hc, if_pos hc]
        · rw [if_neg hc, if_neg hc]
          rw [save_buffer_to_temp_buffers, save_buffer_to_temp_buffers]
    · cases hgb : (get_buffer? s name).1 with
      | none =>
        simp only [applyOp, insert_line, hgb]
        exact get_buffer?_snapshots s name
      | some b =>
        simp only [applyOp, insert_line, hgb]
        by_cases hc : n < 1
        · rw [if_pos hc]
          exact get_buffer?_snapshots s name
        · rw [if_neg hc]
          exact snapshots_after_save_update s name _ _ hw
  | del n =>
    refine ⟨?_, ?_, fun hw => ?_⟩
    · cases hgb : (get_buffer? s name).1 with
      | none => simp [applyOp, delete_line, get_buffer?_setW, hgb]
      | some b =>
        simp only [applyOp, delete_line, get_buffer?_setW, hgb]
        by_cases hc : n < 1 ∨ n > (b.lines.length : Int)
        · rw [if_pos hc, if_pos hc]
        · rw [if_neg hc, if_neg hc]
    · cases hgb : (get_buffer? s name).1 with
      | none => simp [applyOp, delete_line, get_buffer?_setW, hgb]
      | some b =>
        simp only [applyOp, delete_line, get_buffer?_setW, hgb]
        by_cases hc : n < 1 ∨ n > (b.lines.length : Int)
        · rw [if_pos hc, if_pos hc]
        · rw [if_neg hc, if_neg hc]
          rw [save_buffer_to_temp_buffers, save_buffer_to_temp_buffers]
    · cases hgb : (get_buffer? s name).1 with
      | none =>
        simp only [applyOp, delete_line, hgb]
        exact get_buffer?_snapshots s name
      | some b =>
        simp only [applyOp, delete_line, hgb]
        by_cases hc : n < 1 ∨ n > (b.lines.length : Int)
        · rw [if_pos hc]
          exact get_buffer?_snapshots s name
        · rw [if_neg hc]
          exact snapshots_after_save_update s name _ _ hw
  | move f t =>
    refine ⟨?_, ?_, fun hw => ?_⟩
    · cases hgb : (get_buffer? s name).1 with
      | none => simp [applyOp, move_line, get_buffer?_setW, hgb]
      | some b =>
        simp only [applyOp, move_line, get_buffer?_setW, hgb]
        by_cases hc : f < 1 ∨ t < 1 ∨ f > (b.lines.length : Int) ∨ t > (b.lines.length : Int)
        · rw [if_pos hc, if_pos hc]
        · rw [if_neg hc, if_neg hc]
    · cases hgb : (get_buffer? s name).1 with
      | none => simp [applyOp, move_line, get_buffer?_setW, hgb]
      | some b =>
        simp only [applyOp, move_line, get_buffer?_setW, hgb]
        by_cases hc : f < 1 ∨ t < 1 ∨ f > (b.lines.length : Int) ∨ t > (b.lines.length : Int)
        · rw [if_pos hc, if_pos hc]
        · rw [if_neg hc, if_neg hc]
          rw [save_buffer_to_temp_buffers, save_buffer_to_temp_buffers]
    · cases hgb : (get_buffer? s name).1 with
      | none =>
        simp only [applyOp, move_line, hgb]
        exact get_buffer?_snapshots s name
      | some b =>
        simp only [applyOp, move_line, hgb]
        by_cases hc : f < 1 ∨ t < 1 ∨ f > (b.lines.length : Int) ∨ t > (b.lines.length : Int)
        · rw [if_pos hc]
          exact get_buffer?_snapshots s name
        · rw [if_neg hc]
          exact snapshots_after_save_update s name _ _ hw
  | copy f t =>
    refine ⟨?_, ?_, fun hw => ?_⟩
    · cases hgb : (get_buffer? s name).1 with
      | none => simp [applyOp, copy_line, get_buffer?_setW, hgb]
      | some b =>
        simp only [applyOp, copy_line, get_buffer?_setW, hgb]
        by_cases hc : f < 1 ∨ t < 1 ∨ f > (b.lines.length : Int) ∨ t > (b.lines.length : Int)
        · rw [if_pos hc, if_pos hc]
        · rw [if_neg hc, if_neg hc]
    · cases hgb : (get_buffer? s name).1 with
      | none => simp [applyOp, copy_line, get_buffer?_setW, hgb]
      | some b =>
        simp only [applyOp, copy_line, get_buffer?_setW, hgb]
        by_cases hc : f < 1 ∨ t < 1 ∨ f > (b.lines.length : Int) ∨ t > (b.lines.length : Int)
        · rw [if_pos hc, if_pos hc]
        · rw [if_neg hc, if_neg hc]
          rw [save_buffer_to_temp_buffers, save_buffer_to_temp_buffers]
    · cases hgb : (get_buffer? s name).1 with
      | none =>
        simp only [applyOp, copy_line, hgb]
        exact get_buffer?_snapshots s name
      | some b =>
        simp only [applyOp, copy_line, hgb]
        by_cases hc : f < 1 ∨ t < 1 ∨ f > (b.lines.length : Int) ∨ t > (b.lines.length : Int)
        · rw [if_pos hc]
          exact get_buffer?_snapshots s name
        · rw [if_neg hc]
          exact snapshots_after_save_update s name _ _ hw
  | openf path =>
    refine ⟨?_, ?_, fun hw => ?_⟩
    · cases hf : fs.read path with
      | none => simp [applyOp, open_file, create_buffer_setW, hf]
      | some c => simp [applyOp, open_file, create_buffer_setW, hf]
    · cases hf : fs.read path with
      | none => simp [applyOp, open_file, create_buffer_setW, hf]
      | some c =>
        simp only [applyOp, open_file, create_buffer_setW, hf]
        rw [save_buffer_to_temp_buffers, save_buffer_to_temp_buffers]
    · cases hf : fs.read path with
      | none =>
        simp only [applyOp, open_file, hf]
        exact create_buffer_snapshots s name
      | some c =>
        simp only [applyOp, open_file, hf]
        exact snapshots_after_save_update_cb s name _ _ hw
  | savef path =>
    refine ⟨?_, ?_, fun hw => ?_⟩
    · cases hgb : (get_buffer? s name).1 with
      | none => simp [applyOp, save_file, get_buffer?_setW, hgb]
      | some b =>
        simp only [applyOp, save_file, get_buffer?_setW, hgb]
        by_cases hp : (if path = "" then b.file_path else path) = ""
        · rw [if_pos hp, if_pos hp]
        · rw [if_neg hp, if_neg hp]
          by_cases hfw : fs.writable (if path = "" then b.file_path else path) = true
          · rw [if_pos hfw, if_pos hfw]
          · rw [if_neg hfw, if_neg hfw]
    · cases hgb : (get_buffer? s name).1 with
      | none => simp [applyOp, save_file, get_buffer?_setW, hgb]
      | some b =>
        simp only [applyOp, save_file, get_buffer?_setW, hgb]
        by_cases hp : (if path = "" then b.file_path else path) = ""
        · rw [if_pos hp, if_pos hp]
        · rw [if_neg hp, if_neg hp]
          by_cases hfw : fs.writable (if path = "" then b.file_path else path) = true
          · rw [if_pos hfw, if_pos hfw]
            rw [save_buffer_to_temp_buffers, save_buffer_to_temp_buffers]
          · rw [if_neg hfw, if_neg hfw]
    · cases hgb : (get_buffer? s name).1 with
      | none =>
        simp only [applyOp, save_file, hgb]
        exact get_buffer?_snapshots s name
      | some b =>
        simp only [applyOp, save_file, hgb]
        by_cases hp : (if path = "" then b.file_path else path) = ""
        · rw [if_pos hp]
          exact get_buffer?_snapshots s name
        · rw [if_neg hp]
          by_cases hfw : fs.writable (if path = "" then b.file_path else path) = true
          · rw [if_pos hfw]
            exact snapshots_after_save_update s name _ _ hw
          · rw [if_neg hfw]
            exact get_buffer?_snapshots s name
  | newbuf path =>
    refine ⟨?_, ?_, fun hw => ?_⟩
    · simp [applyOp, create_new_buffer, create_buffer_setW]
    · simp only [applyOp, create_new_buffer, create_buffer_setW]
      rw [save_buffer_to_temp_buffers, save_buffer_to_temp_buffers]
    · simp only [applyOp, create_new_buffer]
      exact snapshots_after_save_update_cb s name _ _ hw

/-- The two-line state with every snapshot file unwritable. -/
def twoLineStateRO : BMState := { twoLineState with snapWritable := fun _ => false }

theorem C9_witness :
    ((applyOp (FileSystem.mk (fun _ => none) (fun _ => true))
        { twoLineStateRO with snapWritable := fun _ => true } "t" (EditOp.del 1)).1 =
      (applyOp (FileSystem.mk (fun _ => none) (fun _ => true))
        twoLineStateRO "t" (EditOp.del 1)).1) ∧
    ((applyOp (FileSystem.mk (fun _ => none) (fun _ => true))
        { twoLineStateRO with snapWritable := fun _ => true } "t" (EditOp.del 1)).2.buffers =
      (applyOp (FileSystem.mk (fun _ => none) (fun _ => true))
        twoLineStateRO "t" (EditOp.del 1)).2.buffers) ∧
    (∀ m, twoLineStateRO.snapWritable m = false) ∧
    (applyOp (FileSystem.mk (fun _ => none) (fun _ => true))
        twoLineStateRO "t" (EditOp.del 1)).2.snapshots = twoLineStateRO.snapshots :=
  ⟨(C9_snapshot_failure_swallowed (FileSystem.mk (fun _ => none) (fun _ => true))
      twoLineStateRO "t" (EditOp.del 1) (fun _ => true)).1,
   (C9_snapshot_failure_swallowed (FileSystem.mk (fun _ => none) (fun _ => true))
      twoLineStateRO "t" (EditOp.del 1) (fun _ => true)).2.1,
   fun _ => rfl,
   (C9_snapshot_failure_swallowed (FileSystem.mk (fun _ => none) (fun _ => true))
      twoLineStateRO "t" (EditOp.del 1) (fun _ => true)).2.2 (fun _ => rfl)⟩

end BFF
